import Mathlib

/-!
Shallow embedding of `alma_tests_cacher/cacher.py` — the per-repository
reconciliation pass of the AlmaTestsCacher class — together with theorems
settling the frozen claims about it.

Modelling conventions:
* The filesystem under a repository's tests root is a list of `Entry`
  values (name plus a directory flag), in the order `Path.glob` enumerates
  them (glob omits dot-prefixed names; that enumeration is the input here).
* Network effects are reified: each bulk operation returns the list of
  HTTP requests it issues (empty when it short-circuits), and the pass
  returns the concatenation of the requests it issues.
* `re.search(rf'^{p}', name)` with an interpolated literal folder prefix is
  modelled as a character-list prefix test (`hasPfx`), which agrees with
  the regex whenever the configured prefix contains no regex
  metacharacters.
* Python integer truthiness (`if test.id`) is modelled on `Option Nat`:
  truthy iff the value is present and nonzero.
-/

/-- Modelled from the spec: `PackageTestRepository` lives in
`alma_tests_cacher/models.py`, which is not part of the given sources.
Per the spec's data model it has an optional identifier (absent for newly
discovered, not-yet-created records), a folder name, a package name, a
resolved URL, and an optional regex pattern set only for rule-produced
records. -/
structure PackageTestRepository where
  id : Option Nat := none
  folder_name : String
  package_name : String
  url : String
  regex : Option String := none
deriving DecidableEq, Repr

/-- Modelled from the spec: `TestRepository` lives in
`alma_tests_cacher/models.py`, which is not part of the given sources.
Per the spec's data model it has an API-assigned identifier, a display
name, a clone URL, the relative tests-root path, an optional tests-folder
prefix, an optional common-folder name, and the owned package records. -/
structure TestRepository where
  id : Nat
  name : String
  url : String
  tests_dir : String
  tests_prefix : Option String := none
  common_test_dir_name : Option String := none
  packages : List PackageTestRepository
deriving DecidableEq, Repr

/-- One immediate child of the repository's tests root, as enumerated by
`repo_dir.glob(f'{repo.tests_dir}*')` in `process_repo`: its own name and
whether it is a directory (the source never inspects the latter). -/
structure Entry where
  name : String
  isDir : Bool
deriving DecidableEq, Repr

/-- Anchored literal prefix match, the meaning of
`re.search(rf'^{p}', s)` for a pattern-free `p`; stated over the strings'
character lists so that concrete instances evaluate. -/
def hasPfx (p s : String) : Bool := p.data.isPrefixOf s.data

/-- The discovery test of `process_repo` (cacher.py lines 222-233): the
entry name is matched against `^{tests_prefix}`, or against
`^({tests_prefix}|{common_test_dir_name})` when a common folder name is
configured. With a literal prefix this is prefix-or-alternation matching
on the entry's own name. -/
def matchesDiscovery (tp : String) (common : Option String) (name : String) : Bool :=
  match common with
  | some c => hasPfx tp name || hasPfx c name
  | none => hasPfx tp name

/-- Folder discovery (cacher.py lines 231-234): walk the glob of the tests
root's immediate children and keep the names matching the pattern. The
source appends `folder.name` for every matching entry, directory or not. -/
def discoverFolders (tp : String) (common : Option String) (entries : List Entry) : List String :=
  (entries.filter (fun e => matchesDiscovery tp common e.name)).map Entry.name

/-- Discovery as claim C8 words it (spec-side definition, for comparison
with `discoverFolders`): only immediate children *that are directories*
and whose name matches the pattern. -/
def specDiscoverFolders (tp : String) (common : Option String) (entries : List Entry) :
    List String :=
  (entries.filter (fun e => e.isDir && matchesDiscovery tp common e.name)).map Entry.name

/-- `AlmaTestsCacher.get_compiled_test_rules` (cacher.py lines 122-135):
walk the rule mapping in order; a rule whose target folder is absent from
`remote_test_folders` goes to the missing list, the others are kept as
(pattern, target) pairs in input order. -/
def get_compiled_test_rules (test_rules : List (String × String))
    (remote_test_folders : List String) : List (String × String) × List String :=
  match test_rules with
  | [] => ([], [])
  | (regex, folder_name) :: rest =>
    let r := get_compiled_test_rules rest remote_test_folders
    if remote_test_folders.contains folder_name then
      ((regex, folder_name) :: r.1, r.2)
    else
      (r.1, folder_name :: r.2)

/-- An outbound HTTP request to the build-system API, as issued through
`make_request` by the two bulk operations. -/
inductive Request where
  | bulkCreate : Nat → List PackageTestRepository → Request
  | bulkRemove : Nat → List Nat → Request
deriving DecidableEq, Repr

/-- `AlmaTestsCacher.bulk_remove_test_folders` (cacher.py lines 137-155):
an empty id list returns at once; otherwise one POST to the bulk_remove
endpoint is issued (its failure is caught and logged, which does not
change the issued request). -/
def bulk_remove_test_folders (test_folders_ids : List Nat) (repository_id : Nat) :
    List Request :=
  if test_folders_ids.isEmpty then []
  else [Request.bulkRemove repository_id test_folders_ids]

/-- `AlmaTestsCacher.bulk_create_test_folders` (cacher.py lines 157-177):
an empty record list returns at once; otherwise one POST to the
bulk_create endpoint is issued. -/
def bulk_create_test_folders (test_folders : List PackageTestRepository)
    (repository_id : Nat) : List Request :=
  if test_folders.isEmpty then []
  else [Request.bulkCreate repository_id test_folders]

/-- Stands in for Python's `urllib.parse.urljoin`, an external standard
library collaborator. No claim in this development depends on the content
of a resolved URL, so it is modelled as plain concatenation; all that
matters is that it is some total function of base and relative part. -/
def urljoin (base rel : String) : String := base ++ rel

/-- The package-name computation `re.sub(rf'^{tests_prefix}', '', folder)`
(cacher.py lines 278-282): remove the prefix when the folder name starts
with it, leave the name unchanged otherwise. -/
def stripTestsPfx (tp name : String) : String :=
  if hasPfx tp name then ⟨name.data.drop tp.length⟩ else name

/-- The record synthesized for a directly discovered folder (cacher.py
lines 276-287): folder name as given, package name with the prefix
stripped, URL resolved against repo URL + tests dir; no id, no regex. -/
def mkDiscoveredTest (u td tp folder : String) : PackageTestRepository :=
  { folder_name := folder
    package_name := stripTestsPfx tp folder
    url := urljoin (urljoin u td) folder }

/-- The record synthesized for a compiled rule (cacher.py lines 290-302):
folder name is the rule target, package name is the rule's pattern string,
URL resolved the same way, regex set to the pattern; no id. -/
def mkRuleTest (u td pat target : String) : PackageTestRepository :=
  { folder_name := target
    package_name := pat
    url := urljoin (urljoin u td) target
    regex := some pat }

/-- Truthiness of `test_folders_mapping.get(name)` (cacher.py lines
269-275, 290-293): the dict is built once from `repo.packages` before
either synthesis loop runs, so a name is "known" exactly when some
already-listed package carries it. -/
def knownFolder (packages : List PackageTestRepository) (name : String) : Bool :=
  packages.any (fun p => p.folder_name == name)

/-- Python integer truthiness of an optional id (`and existent_test.id`,
`if existent_test.id`): present and nonzero. -/
def truthyId (p : PackageTestRepository) : Bool :=
  match p.id with
  | some n => n != 0
  | none => false

/-- The `new_test_folders` list at line 305 of cacher.py: first the two
synthesis loops run over the discovered folders and then over the compiled
rules, each skipping names found in `test_folders_mapping` — the mapping
built once from the packages known at the start of the pass and never
refreshed while the loops append. -/
def newTestFolders (K : List PackageTestRepository) (D : List String)
    (R : List (String × String)) (u td tp : String) : List PackageTestRepository :=
  (D.filter (fun f => !knownFolder K f)).map (mkDiscoveredTest u td tp)
    ++ (R.filter (fun rule => !knownFolder K rule.2)).map
      (fun rule => mkRuleTest u td rule.1 rule.2)

/-- The diff-driven removal list (cacher.py lines 306-314): the ids of the
packages — the list grown by the synthesis loops — whose folder name is
not among the discovered folders and whose id is truthy. -/
def diffRemoveIds (packages : List PackageTestRepository) (D : List String) : List Nat :=
  (packages.filter (fun p => !(D.contains p.folder_name) && truthyId p)).map
    (fun p => p.id.getD 0)

/-- The safeguard removal list (cacher.py lines 315-323): the truthy ids
of every package in the grown list. -/
def safeguardIds (packages : List PackageTestRepository) : List Nat :=
  (packages.filter truthyId).map (fun p => p.id.getD 0)

/-- The apply phase of `process_repo` (cacher.py lines 269-323) given the
known packages `K`, the discovered folders `D` and the compiled rules `R`:
synthesize the new records, issue bulk_create on them, issue bulk_remove
on the diff-driven id list over the grown package list, and — when
discovery produced nothing yet the grown list is nonempty — issue
bulk_remove once more on every truthy id. -/
def applyRequests (rid : Nat) (K : List PackageTestRepository) (D : List String)
    (R : List (String × String)) (u td tp : String) : List Request :=
  let newTF := newTestFolders K D R u td tp
  let pkgs := K ++ newTF
  bulk_create_test_folders newTF rid
    ++ bulk_remove_test_folders (diffRemoveIds pkgs D) rid
    ++ (if D.isEmpty && !pkgs.isEmpty then
          bulk_remove_test_folders (safeguardIds pkgs) rid
        else [])

/-- Outcome of discovery plus rule compilation plus the one-shot self-heal
(cacher.py lines 231-268): the discovered folders and compiled/missing
rules in force for the rest of the pass, and how many repair re-clones
were performed. -/
structure HealResult where
  folders : List String
  compiled : List (String × String)
  missing : List String
  reclones : Nat
deriving DecidableEq, Repr

/-- Discovery, compilation and self-heal (cacher.py lines 231-268).
`entries1` is the tests root of the checkout present at the start of the
pass; `entries2` is the tests root obtained by the repair re-clone
(upstream truth). If the first compilation reports no missing target the
first results stand; otherwise the checkout is discarded, re-cloned once,
and discovery and compilation run once more on `entries2`, whose results
stand for the rest of the pass. Models the successful-re-clone path: a
clone exception aborts the repository's pass with no request issued. -/
def healedDiscovery (tp : String) (common : Option String)
    (rules : List (String × String)) (entries1 entries2 : List Entry) : HealResult :=
  let d1 := discoverFolders tp common entries1
  let c1 := get_compiled_test_rules rules d1
  if c1.2.isEmpty then ⟨d1, c1.1, c1.2, 0⟩
  else
    let d2 := discoverFolders tp common entries2
    let c2 := get_compiled_test_rules rules d2
    ⟨d2, c2.1, c2.2, 1⟩

/-- The requests issued by one `process_repo` pass after the checkout
step, as a function of the pass inputs: known packages, repo coordinates,
rule file contents, and the two possible tests-root states (current
checkout, fresh re-clone). -/
def processRepoRequests (rid : Nat) (K : List PackageTestRepository) (u td tp : String)
    (common : Option String) (rules : List (String × String))
    (entries1 entries2 : List Entry) : List Request :=
  applyRequests rid K (healedDiscovery tp common rules entries1 entries2).folders
    (healedDiscovery tp common rules entries1 entries2).compiled u td tp

/-- The effective tests prefix (cacher.py line 187):
`repo.tests_prefix if repo.tests_prefix else ''` — a missing or empty
prefix becomes the empty string. -/
def effPfx (repo : TestRepository) : String :=
  ( repo.tests_prefix).getD ""

/-- The effective common folder name (cacher.py lines 223-229): the
alternation branch of the pattern is used only when
`repo.common_test_dir_name` is truthy, i.e. present and nonempty. -/
def effCommon (repo : TestRepository) : Option String :=
  match repo.common_test_dir_name with
  | some c => if c.isEmpty then none else some c
  | none => none

/-- `AlmaTestsCacher.process_repo` (cacher.py lines 179-324) for one
repository, reduced to the requests it issues: discovery with the
repository's effective prefix and common-folder pattern, rule compilation
with self-heal, then the diff-and-apply phase against the repository's
known packages. -/
def process_repo (repo : TestRepository) (rules : List (String × String))
    (entries1 entries2 : List Entry) : List Request :=
  processRepoRequests repo.id repo.packages repo.url repo.tests_dir (effPfx repo)
    (effCommon repo) rules entries1 entries2

/-! Helper lemmas shared by the claim theorems. -/

theorem knownFolder_iff (K : List PackageTestRepository) (f : String) :
    knownFolder K f = true ↔ ∃ p ∈ K, p.folder_name = f := by
  simp [knownFolder]

theorem get_compiled_fst_eq (test_rules : List (String × String)) (folders : List String) :
    (get_compiled_test_rules test_rules folders).1
      = test_rules.filter (fun rule => folders.contains rule.2) := by
  induction test_rules with
  | nil => rfl
  | cons head rest ih =>
    obtain ⟨p, t⟩ := head
    by_cases h : t ∈ folders <;>
      simp [get_compiled_test_rules, h, ih, List.filter_cons]

theorem get_compiled_snd_eq (test_rules : List (String × String)) (folders : List String) :
    (get_compiled_test_rules test_rules folders).2
      = (test_rules.filter (fun rule => !(folders.contains rule.2))).map Prod.snd := by
  induction test_rules with
  | nil => rfl
  | cons head rest ih =>
    obtain ⟨p, t⟩ := head
    by_cases h : t ∈ folders <;>
      simp [get_compiled_test_rules, h, ih, List.filter_cons]

theorem mem_compiled_target_mem {test_rules : List (String × String)}
    {folders : List String} {rule : String × String}
    (h : rule ∈ (get_compiled_test_rules test_rules folders).1) : rule.2 ∈ folders := by
  rw [get_compiled_fst_eq] at h
  have := (List.mem_filter.mp h).2
  simpa using this

theorem newTestFolders_id_none {K : List PackageTestRepository} {D : List String}
    {R : List (String × String)} {u td tp : String} {rec : PackageTestRepository}
    (h : rec ∈ newTestFolders K D R u td tp) : rec.id = none := by
  simp only [newTestFolders, List.mem_append, List.mem_map, List.mem_filter] at h
  rcases h with ⟨f, _, rfl⟩ | ⟨rule, _, rfl⟩ <;> rfl

theorem newTestFolders_not_known {K : List PackageTestRepository} {D : List String}
    {R : List (String × String)} {u td tp : String} {rec : PackageTestRepository}
    (h : rec ∈ newTestFolders K D R u td tp) : knownFolder K rec.folder_name = false := by
  simp only [newTestFolders, List.mem_append, List.mem_map, List.mem_filter] at h
  rcases h with ⟨f, ⟨hmem, hcond⟩, rfl⟩ | ⟨rule, ⟨hmem, hcond⟩, rfl⟩
  · simpa [mkDiscoveredTest] using hcond
  · simpa [mkRuleTest] using hcond

theorem newTestFolders_folder_src {K : List PackageTestRepository} {D : List String}
    {R : List (String × String)} {u td tp : String} {rec : PackageTestRepository}
    (h : rec ∈ newTestFolders K D R u td tp) :
    rec.folder_name ∈ D ∨ ∃ rule ∈ R, rec.folder_name = rule.2 := by
  simp only [newTestFolders, List.mem_append, List.mem_map, List.mem_filter] at h
  rcases h with ⟨f, ⟨hmem, _⟩, rfl⟩ | ⟨rule, ⟨hmem, _⟩, rfl⟩
  · exact Or.inl hmem
  · exact Or.inr ⟨rule, hmem, rfl⟩

theorem truthyId_newTestFolders {K : List PackageTestRepository} {D : List String}
    {R : List (String × String)} {u td tp : String} {rec : PackageTestRepository}
    (h : rec ∈ newTestFolders K D R u td tp) : truthyId rec = false := by
  have := newTestFolders_id_none h
  simp [truthyId, this]

theorem diffRemoveIds_append (K L : List PackageTestRepository) (D : List String) :
    diffRemoveIds (K ++ L) D = diffRemoveIds K D ++ diffRemoveIds L D := by
  simp [diffRemoveIds, List.filter_append]

theorem diffRemoveIds_newTestFolders (K : List PackageTestRepository) (D E : List String)
    (R : List (String × String)) (u td tp : String) :
    diffRemoveIds (newTestFolders K D R u td tp) E = [] := by
  simp only [diffRemoveIds, List.map_eq_nil_iff, List.filter_eq_nil_iff]
  intro rec hrec
  simp [truthyId_newTestFolders hrec]

theorem safeguardIds_append (K L : List PackageTestRepository) :
    safeguardIds (K ++ L) = safeguardIds K ++ safeguardIds L := by
  simp [safeguardIds, List.filter_append]

theorem safeguardIds_newTestFolders (K : List PackageTestRepository) (D : List String)
    (R : List (String × String)) (u td tp : String) :
    safeguardIds (newTestFolders K D R u td tp) = [] := by
  simp only [safeguardIds, List.map_eq_nil_iff, List.filter_eq_nil_iff]
  intro rec hrec
  simp [truthyId_newTestFolders hrec]

theorem diffRemoveIds_nil_eq_safeguard (K : List PackageTestRepository) :
    diffRemoveIds K [] = safeguardIds K := by
  simp [diffRemoveIds, safeguardIds]

theorem mem_diffRemoveIds {pkgs : List PackageTestRepository} {D : List String} {i : Nat}
    (h : i ∈ diffRemoveIds pkgs D) :
    ∃ p ∈ pkgs, p.id = some i ∧ i ≠ 0 ∧ p.folder_name ∉ D := by
  simp only [diffRemoveIds, List.mem_map, List.mem_filter] at h
  obtain ⟨p, ⟨hmem, hcond⟩, rfl⟩ := h
  rcases hp : p.id with _ | n
  · simp [truthyId, hp] at hcond
  · refine ⟨p, hmem, ?_⟩
    have hcond' := hcond
    simp only [Bool.and_eq_true, Bool.not_eq_true'] at hcond'
    have hn : n ≠ 0 := by
      have := hcond'.2
      simpa [truthyId, hp] using this
    refine ⟨by simp [hp], by simp [hp, hn], ?_⟩
    have := hcond'.1
    simpa using this

theorem mem_safeguardIds {pkgs : List PackageTestRepository} {i : Nat}
    (h : i ∈ safeguardIds pkgs) : ∃ p ∈ pkgs, p.id = some i ∧ i ≠ 0 := by
  simp only [safeguardIds, List.mem_map, List.mem_filter] at h
  obtain ⟨p, ⟨hmem, hcond⟩, rfl⟩ := h
  rcases hp : p.id with _ | n
  · simp [truthyId, hp] at hcond
  · have hn : n ≠ 0 := by simpa [truthyId, hp] using hcond
    exact ⟨p, hmem, by simp [hp], by simp [hp, hn]⟩

theorem healedDiscovery_same (tp : String) (common : Option String)
    (rules : List (String × String)) (e : List Entry) :
    (healedDiscovery tp common rules e e).folders = discoverFolders tp common e ∧
    (healedDiscovery tp common rules e e).compiled
      = (get_compiled_test_rules rules (discoverFolders tp common e)).1 := by
  by_cases h : (get_compiled_test_rules rules (discoverFolders tp common e)).2.isEmpty <;>
    simp [healedDiscovery, h]

/-! The claim theorems. -/

/-- C6: calling `bulk_create_test_folders` with an empty list of test
folders, or `bulk_remove_test_folders` with an empty list of identifiers,
returns immediately and issues no network request, for every repository
id. -/
theorem claim6_bulk_noops (repository_id : Nat) :
    bulk_remove_test_folders [] repository_id = [] ∧
    bulk_create_test_folders [] repository_id = [] :=
  ⟨rfl, rfl⟩

/-- C7: for every rule mapping and every discovered-folder list,
`get_compiled_test_rules` returns compiled = exactly the (pattern, target)
pairs whose target is among the discovered folders, in input order, and
missing = exactly the targets of the remaining rules, in input order.
(The function is a pure Lean function of its two arguments — no network,
no disk, no mutation — by construction of the embedding.) -/
theorem claim7_rule_compiler_partition (test_rules : List (String × String))
    (remote_test_folders : List String) :
    (get_compiled_test_rules test_rules remote_test_folders).1
      = test_rules.filter (fun rule => remote_test_folders.contains rule.2) ∧
    (get_compiled_test_rules test_rules remote_test_folders).2
      = (test_rules.filter
          (fun rule => !(remote_test_folders.contains rule.2))).map Prod.snd :=
  ⟨get_compiled_fst_eq test_rules remote_test_folders,
   get_compiled_snd_eq test_rules remote_test_folders⟩

/-- C8, counterexample: the claim requires discovered folders to be
directories, but the source's discovery loop never inspects the directory
flag of a glob entry. A tests root holding a non-directory entry named
`test-notes` (prefix `test-`) is discovered by the code yet excluded by
the claim's set. -/
theorem claim8_counterexample :
    discoverFolders "test-" none [⟨"test-notes", false⟩]
      ≠ specDiscoverFolders "test-" none [⟨"test-notes", false⟩] := by
  decide

/-- C8 as amended: the discovered-folder set of a pass consists exactly of
the immediate children of the configured tests root — of any kind, not
only directories — whose own name matches the anchored pattern
`^(prefix)`, or `^(prefix|common_dir_name)` when a common folder name is
configured. -/
theorem claim8_amended (tp : String) (common : Option String) (entries : List Entry)
    (f : String) :
    f ∈ discoverFolders tp common entries ↔
      ∃ e ∈ entries, e.name = f ∧
        (hasPfx tp f = true ∨ ∃ c, common = some c ∧ hasPfx c f = true) := by
  simp only [discoverFolders, List.mem_map, List.mem_filter]
  constructor
  · rintro ⟨e, ⟨hmem, hmatch⟩, rfl⟩
    refine ⟨e, hmem, rfl, ?_⟩
    cases common with
    | none => exact Or.inl hmatch
    | some c =>
      simp only [matchesDiscovery, Bool.or_eq_true] at hmatch
      rcases hmatch with h | h
      · exact Or.inl h
      · exact Or.inr ⟨c, rfl, h⟩
  · rintro ⟨e, hmem, rfl, hmatch⟩
    refine ⟨e, ⟨hmem, ?_⟩, rfl⟩
    rcases hmatch with h | ⟨c, rfl, h⟩
    · cases common <;> simp [matchesDiscovery, h]
    · simp [matchesDiscovery, h]

/-- C1, counterexample: with no known packages, discovered folders
`[test-a]` and the compiled rule `(pkg, test-a)` — compiled rule targets
are always discovered folders, since the compiler keeps exactly those —
the set (D union rule targets) minus K has the single element `test-a`,
yet two records are passed to bulk_create for it, so the create set is not
"exactly one new record per element". -/
theorem claim1_counterexample :
    ((newTestFolders [] ["test-a"] [("pkg", "test-a")] "https://h/r.git" "tests/"
        "test-").map (fun rec => rec.folder_name)) = ["test-a", "test-a"] ∧
    ¬ ((newTestFolders [] ["test-a"] [("pkg", "test-a")] "https://h/r.git" "tests/"
        "test-").map (fun rec => rec.folder_name)).Nodup := by
  constructor
  · decide
  · decide

/-- C1 as amended: for any duplicate-free discovered-folder list D,
compiled-rule list R and known-package list K, (i) a package already known
by folder name is never re-created, whatever its other fields hold; (ii)
the records passed to bulk_create hold, per folder name f, one record when
f is in D and unknown, plus one record per rule in R targeting f with f
unknown — so a folder that is both newly discovered and a rule target
receives two records, not one; (iii) the identifiers passed to the
diff-driven bulk_remove call are exactly the set identifiers of the known
packages whose folder name is not in D (freshly synthesized records, id
none, never contribute). -/
theorem claim1_diff_amended (K : List PackageTestRepository) (D : List String)
    (R : List (String × String)) (u td tp : String) (hD : D.Nodup) (f : String) :
    (knownFolder K f = true →
      ∀ rec ∈ newTestFolders K D R u td tp, rec.folder_name ≠ f) ∧
    (newTestFolders K D R u td tp).countP (fun rec => rec.folder_name == f)
      = (if f ∈ D ∧ knownFolder K f = false then 1 else 0)
        + R.countP (fun rule => rule.2 == f && !knownFolder K f) ∧
    diffRemoveIds (K ++ newTestFolders K D R u td tp) D
      = (K.filter (fun p => !(D.contains p.folder_name) && truthyId p)).map
          (fun p => p.id.getD 0) := by
  refine ⟨?_, ?_, ?_⟩
  · intro hk rec hrec heq
    have := newTestFolders_not_known hrec
    rw [heq, hk] at this
    exact Bool.false_ne_true this.symm
  · have e1 : List.countP (fun rec => rec.folder_name == f)
        ((D.filter (fun x => !knownFolder K x)).map (mkDiscoveredTest u td tp))
        = List.countP (fun x => (x == f) && !knownFolder K x) D := by
      rw [List.countP_map, List.countP_filter]
      apply List.countP_congr
      intro x _
      simp [mkDiscoveredTest, Function.comp]
    have e2 : List.countP (fun rec => rec.folder_name == f)
        ((R.filter (fun rule => !knownFolder K rule.2)).map
          (fun rule => mkRuleTest u td rule.1 rule.2))
        = List.countP (fun rule => (rule.2 == f) && !knownFolder K rule.2) R := by
      rw [List.countP_map, List.countP_filter]
      apply List.countP_congr
      intro rule _
      simp [mkRuleTest, Function.comp]
    have e3 : List.countP (fun rule => (rule.2 == f) && !knownFolder K rule.2) R
        = List.countP (fun rule => (rule.2 == f) && !knownFolder K f) R := by
      apply List.countP_congr
      intro rule _
      by_cases heq : rule.2 = f
      · rw [heq]
      · simp [heq]
    have e4 : List.countP (fun x => (x == f) && !knownFolder K x) D
        = if f ∈ D ∧ knownFolder K f = false then 1 else 0 := by
      by_cases hk : knownFolder K f = true
      · have h0 : List.countP (fun x => (x == f) && !knownFolder K x) D = 0 := by
          rw [List.countP_eq_zero]
          intro a _ hcontra
          simp only [Bool.and_eq_true, beq_iff_eq] at hcontra
          rw [hcontra.1, hk] at hcontra
          simpa using hcontra.2
        rw [h0]
        simp [hk]
      · have hk' : knownFolder K f = false := by simpa using hk
        have h1 : List.countP (fun x => (x == f) && !knownFolder K x) D
            = List.countP (fun x => x == f) D := by
          apply List.countP_congr
          intro a _
          by_cases heq : a = f
          · simp [heq, hk']
          · simp [heq]
        rw [h1]
        by_cases hf : f ∈ D
        · have hcnt : List.countP (fun x => x == f) D = 1 := by
            rw [← List.count_eq_countP]
            exact List.count_eq_one_of_mem hD hf
          rw [hcnt]
          simp [hf, hk']
        · have hcnt : List.countP (fun x => x == f) D = 0 := by
            rw [List.countP_eq_zero]
            intro a ha hcontra
            exact hf ((beq_iff_eq.mp hcontra) ▸ ha)
          rw [hcnt]
          simp [hf]
    calc (newTestFolders K D R u td tp).countP (fun rec => rec.folder_name == f)
        = List.countP (fun rec => rec.folder_name == f)
            ((D.filter (fun x => !knownFolder K x)).map (mkDiscoveredTest u td tp))
          + List.countP (fun rec => rec.folder_name == f)
            ((R.filter (fun rule => !knownFolder K rule.2)).map
              (fun rule => mkRuleTest u td rule.1 rule.2)) := by
          rw [newTestFolders, List.countP_append]
      _ = (if f ∈ D ∧ knownFolder K f = false then 1 else 0)
          + R.countP (fun rule => rule.2 == f && !knownFolder K f) := by
          rw [e1, e2, e3, e4]
  · rw [diffRemoveIds_append, diffRemoveIds_newTestFolders, List.append_nil]
    rfl

theorem claim1_diff_amended_witness :
    (knownFolder [⟨some 1, "test-alpha", "alpha", "https://old", none⟩] "test-alpha" = true →
      ∀ rec ∈ newTestFolders [⟨some 1, "test-alpha", "alpha", "https://old", none⟩]
          ["test-alpha", "test-beta"] [("rx", "test-beta")] "https://h/r.git" "tests/"
          "test-",
        rec.folder_name ≠ "test-alpha") ∧
    (newTestFolders [⟨some 1, "test-alpha", "alpha", "https://old", none⟩]
        ["test-alpha", "test-beta"] [("rx", "test-beta")] "https://h/r.git" "tests/"
        "test-").countP (fun rec => rec.folder_name == "test-alpha")
      = (if "test-alpha" ∈ ["test-alpha", "test-beta"]
            ∧ knownFolder [⟨some 1, "test-alpha", "alpha", "https://old", none⟩]
                "test-alpha" = false
          then 1 else 0)
        + ([("rx", "test-beta")] : List (String × String)).countP
            (fun rule => rule.2 == "test-alpha"
              && !knownFolder [⟨some 1, "test-alpha", "alpha", "https://old", none⟩]
                  "test-alpha") ∧
    diffRemoveIds
        ([⟨some 1, "test-alpha", "alpha", "https://old", none⟩]
          ++ newTestFolders [⟨some 1, "test-alpha", "alpha", "https://old", none⟩]
              ["test-alpha", "test-beta"] [("rx", "test-beta")] "https://h/r.git" "tests/"
              "test-")
        ["test-alpha", "test-beta"]
      = (([⟨some 1, "test-alpha", "alpha", "https://old", none⟩]
            : List PackageTestRepository).filter
          (fun p => !((["test-alpha", "test-beta"] : List String).contains p.folder_name)
            && truthyId p)).map (fun p => p.id.getD 0) :=
  claim1_diff_amended [⟨some 1, "test-alpha", "alpha", "https://old", none⟩]
    ["test-alpha", "test-beta"] [("rx", "test-beta")] "https://h/r.git" "tests/" "test-"
    (by decide) "test-alpha"

/-- C2: the claim says a folder name that is both directly discovered and
a compiled-rule target, and not yet known, yields exactly one record.
The code yields two: with no known packages, a tests root containing the
folder `test-x` and the rule file `(pkg-x, test-x)`, the pass issues one
bulk_create carrying two records with folder name `test-x` — one literal
(regex `none`), one rule-based (regex set) — because
`test_folders_mapping` is built once before the two synthesis loops and
never sees what the first loop appended. -/
theorem claim2_two_records_created :
    processRepoRequests 7 [] "https://h/q.git" "tests/" "test-" none
        [("pkg-x", "test-x")] [⟨"test-x", true⟩] [⟨"test-x", true⟩]
      = [Request.bulkCreate 7
          [⟨none, "test-x", "x", "https://h/q.gittests/test-x", none⟩,
           ⟨none, "test-x", "pkg-x", "https://h/q.gittests/test-x", some "pkg-x"⟩]] := by
  decide

theorem newTestFolders_folder_in_d {K : List PackageTestRepository} {D : List String}
    {R : List (String × String)} {u td tp : String}
    (hR : ∀ rule ∈ R, rule.2 ∈ D) :
    ∀ rec ∈ newTestFolders K D R u td tp, rec.folder_name ∈ D := by
  intro rec hrec
  rcases newTestFolders_folder_src hrec with h | ⟨rule, hrule, heq⟩
  · exact h
  · exact heq ▸ hR rule hrule

theorem applyRequests_eq_nil (rid : Nat) (K : List PackageTestRepository)
    (D : List String) (R : List (String × String)) (u td tp : String)
    (hknown : ∀ f ∈ D, knownFolder K f = true)
    (hsub : ∀ p ∈ K, p.folder_name ∈ D)
    (hR : ∀ rule ∈ R, rule.2 ∈ D) :
    applyRequests rid K D R u td tp = [] := by
  have hnew : newTestFolders K D R u td tp = [] := by
    simp only [newTestFolders, List.append_eq_nil, List.map_eq_nil_iff,
      List.filter_eq_nil_iff]
    constructor
    · intro f hf
      simp [hknown f hf]
    · intro rule hrule
      simp [hknown rule.2 (hR rule hrule)]
  have hdiff : diffRemoveIds K D = [] := by
    simp only [diffRemoveIds, List.map_eq_nil_iff, List.filter_eq_nil_iff]
    intro p hp
    simp [hsub p hp]
  have hKnil : D.isEmpty = true → K = [] := by
    intro hD
    rw [List.isEmpty_iff] at hD
    cases hK : K with
    | nil => rfl
    | cons p K' =>
      have := hsub p (by rw [hK]; exact List.mem_cons_self p K')
      rw [hD] at this
      exact absurd this (List.not_mem_nil _)
  by_cases hD : D.isEmpty = true
  · have hK : K = [] := hKnil hD
    subst hK
    simp [applyRequests, hnew, hdiff, bulk_create_test_folders,
      bulk_remove_test_folders]
  · simp [applyRequests, hnew, hdiff, bulk_create_test_folders,
      bulk_remove_test_folders, hD]

theorem healed_compiled_targets (tp : String) (common : Option String)
    (rules : List (String × String)) (e1 e2 : List Entry) :
    ∀ rule ∈ (healedDiscovery tp common rules e1 e2).compiled,
      rule.2 ∈ (healedDiscovery tp common rules e1 e2).folders := by
  intro rule hrule
  by_cases h : (get_compiled_test_rules rules (discoverFolders tp common e1)).2.isEmpty <;>
    simp only [healedDiscovery, h, if_true, if_false, Bool.false_eq_true] at hrule ⊢ <;>
    exact mem_compiled_target_mem hrule

/-- C3: a second pass over an unchanged checkout and rule file, run when
the known-package set already equals the discovered folders (and thereby
covers every compiled rule target, those being discovered folders), issues
no request at all: the synthesized-create list and both remove lists are
empty, and the bulk operations short-circuit on them. -/
theorem claim3_idempotent (repo : TestRepository) (rules : List (String × String))
    (entries : List Entry)
    (h1 : ∀ p ∈ repo.packages,
      p.folder_name ∈ discoverFolders (effPfx repo) (effCommon repo) entries)
    (h2 : ∀ f ∈ discoverFolders (effPfx repo) (effCommon repo) entries,
      knownFolder repo.packages f = true) :
    process_repo repo rules entries entries = [] := by
  obtain ⟨hf, hc⟩ := healedDiscovery_same (effPfx repo) (effCommon repo) rules entries
  unfold process_repo processRepoRequests
  rw [hf, hc]
  apply applyRequests_eq_nil
  · exact h2
  · exact h1
  · intro rule hrule
    exact mem_compiled_target_mem hrule

theorem claim3_idempotent_witness :
    process_repo
        { id := 3, name := "repo", url := "https://h/r.git", tests_dir := "tests/",
          tests_prefix := some "test-", common_test_dir_name := none,
          packages := [⟨some 1, "test-alpha", "alpha", "https://h/tests/test-alpha", none⟩] }
        [("rx", "test-alpha")] [⟨"test-alpha", true⟩] [⟨"test-alpha", true⟩] = [] :=
  claim3_idempotent
    { id := 3, name := "repo", url := "https://h/r.git", tests_dir := "tests/",
      tests_prefix := some "test-", common_test_dir_name := none,
      packages := [⟨some 1, "test-alpha", "alpha", "https://h/tests/test-alpha", none⟩] }
    [("rx", "test-alpha")] [⟨"test-alpha", true⟩] (by decide) (by decide)

theorem healedDiscovery_empty {tp : String} {common : Option String}
    (rules : List (String × String)) {e1 e2 : List Entry}
    (hD1 : discoverFolders tp common e1 = [])
    (hD2 : discoverFolders tp common e2 = []) :
    (healedDiscovery tp common rules e1 e2).folders = [] ∧
    (healedDiscovery tp common rules e1 e2).compiled = [] := by
  have hc : ∀ d : List String, d = [] → (get_compiled_test_rules rules d).1 = [] := by
    intro d hd
    subst hd
    rw [get_compiled_fst_eq]
    simp [List.filter_eq_nil_iff]
  by_cases h : (get_compiled_test_rules rules (discoverFolders tp common e1)).2.isEmpty
  · simp only [healedDiscovery, h, if_true]
    exact ⟨hD1, hc _ hD1⟩
  · simp only [healedDiscovery, h, Bool.false_eq_true, if_false]
    exact ⟨hD2, hc _ hD2⟩

theorem applyRequests_empty_discovery (rid : Nat) (K : List PackageTestRepository)
    (u td tp : String) (hne : safeguardIds K ≠ []) :
    applyRequests rid K [] [] u td tp
      = [Request.bulkRemove rid (safeguardIds K),
         Request.bulkRemove rid (safeguardIds K)] := by
  have hnew : newTestFolders K [] [] u td tp = [] := rfl
  have hKne : K.isEmpty = false := by
    cases K with
    | nil => exact absurd rfl hne
    | cons p K' => rfl
  have hsgne : (safeguardIds K).isEmpty = false := by
    cases hsg : safeguardIds K with
    | nil => exact absurd hsg hne
    | cons i is => rfl
  simp only [applyRequests, hnew, List.append_nil, diffRemoveIds_nil_eq_safeguard]
  simp [bulk_create_test_folders, bulk_remove_test_folders, hsgne, hKne]

/-- C4: when folder discovery yields zero folders (on the checkout and on
the repair re-clone alike) while the repository previously had N known
packages, all of them carrying identifiers, the identifiers of all N are
sent to bulk_remove during the pass: the safeguard id list is exactly the
id of every known package, and the corresponding bulk_remove request is
among the pass's requests. -/
theorem claim4_empty_discovery_safeguard (repo : TestRepository)
    (rules : List (String × String)) (e1 e2 : List Entry)
    (hD1 : discoverFolders (effPfx repo) (effCommon repo) e1 = [])
    (hD2 : discoverFolders (effPfx repo) (effCommon repo) e2 = [])
    (hIds : ∀ p ∈ repo.packages, truthyId p = true)
    (hNe : repo.packages ≠ []) :
    safeguardIds repo.packages = repo.packages.map (fun p => p.id.getD 0) ∧
    Request.bulkRemove repo.id (repo.packages.map (fun p => p.id.getD 0))
      ∈ process_repo repo rules e1 e2 := by
  have hsafe : safeguardIds repo.packages = repo.packages.map (fun p => p.id.getD 0) := by
    unfold safeguardIds
    rw [List.filter_eq_self.mpr hIds]
  have hne : safeguardIds repo.packages ≠ [] := by
    rw [hsafe]
    intro h
    exact hNe (List.map_eq_nil_iff.mp h)
  obtain ⟨hf, hc⟩ := healedDiscovery_empty rules hD1 hD2
  refine ⟨hsafe, ?_⟩
  unfold process_repo processRepoRequests
  rw [hf, hc, applyRequests_empty_discovery _ _ _ _ _ hne, hsafe]
  simp

theorem claim4_empty_discovery_safeguard_witness :
    safeguardIds [⟨some 4, "test-gone", "gone", "https://h/tests/test-gone", none⟩]
      = ([⟨some 4, "test-gone", "gone", "https://h/tests/test-gone", none⟩]
          : List PackageTestRepository).map (fun p => p.id.getD 0) ∧
    Request.bulkRemove 9
        (([⟨some 4, "test-gone", "gone", "https://h/tests/test-gone", none⟩]
          : List PackageTestRepository).map (fun p => p.id.getD 0))
      ∈ process_repo
          { id := 9, name := "repo", url := "https://h/r.git", tests_dir := "tests/",
            tests_prefix := some "test-", common_test_dir_name := none,
            packages := [⟨some 4, "test-gone", "gone", "https://h/tests/test-gone", none⟩] }
          [] [] [] :=
  claim4_empty_discovery_safeguard
    { id := 9, name := "repo", url := "https://h/r.git", tests_dir := "tests/",
      tests_prefix := some "test-", common_test_dir_name := none,
      packages := [⟨some 4, "test-gone", "gone", "https://h/tests/test-gone", none⟩] }
    [] [] [] (by decide) (by decide) (by decide) (by decide)

/-- C10: when discovery yields zero folders (before and after the
self-heal re-clone) and the repository has known packages with
identifiers, the diff-driven removal list and the safeguard removal list
coincide, and the pass issues exactly two bulk_remove requests carrying
that identical identifier list — the diff-driven one, every folder name
being vacuously absent from the empty discovered set, and the safeguard
one right after it. -/
theorem claim10_double_removal (repo : TestRepository)
    (rules : List (String × String)) (e1 e2 : List Entry)
    (hD1 : discoverFolders (effPfx repo) (effCommon repo) e1 = [])
    (hD2 : discoverFolders (effPfx repo) (effCommon repo) e2 = [])
    (hNe : safeguardIds repo.packages ≠ []) :
    diffRemoveIds repo.packages [] = safeguardIds repo.packages ∧
    process_repo repo rules e1 e2
      = [Request.bulkRemove repo.id (safeguardIds repo.packages),
         Request.bulkRemove repo.id (safeguardIds repo.packages)] := by
  obtain ⟨hf, hc⟩ := healedDiscovery_empty rules hD1 hD2
  refine ⟨diffRemoveIds_nil_eq_safeguard repo.packages, ?_⟩
  unfold process_repo processRepoRequests
  rw [hf, hc, applyRequests_empty_discovery _ _ _ _ _ hNe]

theorem claim10_double_removal_witness :
    diffRemoveIds
        [⟨some 2, "test-gamma", "gamma", "https://h/tests/test-gamma", none⟩] []
      = safeguardIds [⟨some 2, "test-gamma", "gamma", "https://h/tests/test-gamma", none⟩] ∧
    process_repo
        { id := 5, name := "repo", url := "https://h/r.git", tests_dir := "tests/",
          tests_prefix := some "test-", common_test_dir_name := none,
          packages := [⟨some 2, "test-gamma", "gamma", "https://h/tests/test-gamma", none⟩] }
        [] [] []
      = [Request.bulkRemove 5
          (safeguardIds [⟨some 2, "test-gamma", "gamma", "https://h/tests/test-gamma", none⟩]),
         Request.bulkRemove 5
          (safeguardIds [⟨some 2, "test-gamma", "gamma", "https://h/tests/test-gamma", none⟩])] :=
  claim10_double_removal
    { id := 5, name := "repo", url := "https://h/r.git", tests_dir := "tests/",
      tests_prefix := some "test-", common_test_dir_name := none,
      packages := [⟨some 2, "test-gamma", "gamma", "https://h/tests/test-gamma", none⟩] }
    [] [] [] (by decide) (by decide) (by decide)

theorem healedDiscovery_heal (tp : String) (common : Option String)
    (rules : List (String × String)) (e1 e2 : List Entry)
    (h : (get_compiled_test_rules rules (discoverFolders tp common e1)).2 ≠ []) :
    healedDiscovery tp common rules e1 e2
      = ⟨discoverFolders tp common e2,
         (get_compiled_test_rules rules (discoverFolders tp common e2)).1,
         (get_compiled_test_rules rules (discoverFolders tp common e2)).2, 1⟩ := by
  have hm : (get_compiled_test_rules rules (discoverFolders tp common e1)).2.isEmpty
      = false := by
    cases hc : (get_compiled_test_rules rules (discoverFolders tp common e1)).2 with
    | nil => exact absurd hc h
    | cons a l => rfl
  simp [healedDiscovery, hm]

/-- C5: self-heal happens at most once per repository per pass: the
re-clone counter of the discovery-and-compile stage never exceeds one;
when the first rule compilation reports a missing target it equals
exactly one, and discovery and compilation have been re-run exactly once
more, against the re-cloned tree; and every rule whose target is still
absent from the folders in force is excluded from the compiled rules, so
no record created in the pass carries its target folder name. -/
theorem claim5_self_heal_once (tp : String) (common : Option String)
    (rules : List (String × String)) (e1 e2 : List Entry) :
    (healedDiscovery tp common rules e1 e2).reclones ≤ 1 ∧
    ((get_compiled_test_rules rules (discoverFolders tp common e1)).2 ≠ [] →
      (healedDiscovery tp common rules e1 e2).reclones = 1 ∧
      (healedDiscovery tp common rules e1 e2).folders = discoverFolders tp common e2 ∧
      (healedDiscovery tp common rules e1 e2).compiled
        = (get_compiled_test_rules rules (discoverFolders tp common e2)).1 ∧
      (healedDiscovery tp common rules e1 e2).missing
        = (get_compiled_test_rules rules (discoverFolders tp common e2)).2) ∧
    (∀ rule ∈ rules, rule.2 ∉ (healedDiscovery tp common rules e1 e2).folders →
      rule ∉ (healedDiscovery tp common rules e1 e2).compiled ∧
      ∀ (K : List PackageTestRepository) (u td : String),
        ∀ rec ∈ newTestFolders K (healedDiscovery tp common rules e1 e2).folders
            (healedDiscovery tp common rules e1 e2).compiled u td tp,
          rec.folder_name ≠ rule.2) := by
  refine ⟨?_, ?_, ?_⟩
  · by_cases h : (get_compiled_test_rules rules (discoverFolders tp common e1)).2.isEmpty <;>
      simp [healedDiscovery, h]
  · intro hmiss
    rw [healedDiscovery_heal tp common rules e1 e2 hmiss]
    exact ⟨rfl, rfl, rfl, rfl⟩
  · intro rule _ hnot
    constructor
    · intro hc
      exact hnot (healed_compiled_targets tp common rules e1 e2 rule hc)
    · intro K u td rec hrec heq
      have hmem := newTestFolders_folder_in_d
        (healed_compiled_targets tp common rules e1 e2) rec hrec
      rw [heq] at hmem
      exact hnot hmem

theorem applyRequests_remove_ids {rid : Nat} {K : List PackageTestRepository}
    {D : List String} {R : List (String × String)} {u td tp : String}
    {rid2 : Nat} {ids : List Nat}
    (hmem : Request.bulkRemove rid2 ids ∈ applyRequests rid K D R u td tp) :
    ∀ i ∈ ids, ∃ p ∈ K, p.id = some i ∧ i ≠ 0 := by
  intro i hi
  simp only [applyRequests, List.mem_append] at hmem
  have from_pkgs : ∀ pkgs : List PackageTestRepository,
      (∃ p ∈ pkgs, p.id = some i ∧ i ≠ 0 ∧ True) →
      pkgs = K ++ newTestFolders K D R u td tp →
      ∃ p ∈ K, p.id = some i ∧ i ≠ 0 := by
    intro pkgs hex hpk
    obtain ⟨p, hp, hid, hiz, _⟩ := hex
    subst hpk
    rcases List.mem_append.mp hp with hpK | hpN
    · exact ⟨p, hpK, hid, hiz⟩
    · rw [newTestFolders_id_none hpN] at hid
      exact absurd hid (by simp)
  rcases hmem with (h | h) | h
  · unfold bulk_create_test_folders at h
    split at h
    · exact absurd h (List.not_mem_nil _)
    · rw [List.mem_singleton] at h
      exact absurd h (by simp)
  · unfold bulk_remove_test_folders at h
    split at h
    · exact absurd h (List.not_mem_nil _)
    · rw [List.mem_singleton] at h
      injection h with h1 h2
      subst h2
      obtain ⟨p, hp, hid, hiz, _⟩ := mem_diffRemoveIds hi
      exact from_pkgs _ ⟨p, hp, hid, hiz, trivial⟩ rfl
  · split at h
    · unfold bulk_remove_test_folders at h
      split at h
      · exact absurd h (List.not_mem_nil _)
      · rw [List.mem_singleton] at h
        injection h with h1 h2
        subst h2
        obtain ⟨p, hp, hid, hiz⟩ := mem_safeguardIds hi
        exact from_pkgs _ ⟨p, hp, hid, hiz, trivial⟩ rfl
    · exact absurd h (List.not_mem_nil _)

/-- C9: every identifier carried by any bulk_remove request a pass issues
is the (set, nonzero) identifier of a package the repository already knew
at the start of the pass; the records synthesized during the pass carry no
identifier and never reach either removal call — not the diff-driven one
and not the empty-discovery safeguard one. -/
theorem claim9_remove_ids_known (repo : TestRepository)
    (rules : List (String × String)) (e1 e2 : List Entry) (rid : Nat) (ids : List Nat)
    (hmem : Request.bulkRemove rid ids ∈ process_repo repo rules e1 e2) :
    ∀ i ∈ ids, ∃ p ∈ repo.packages, p.id = some i ∧ i ≠ 0 := by
  unfold process_repo processRepoRequests at hmem
  exact applyRequests_remove_ids hmem

theorem claim9_remove_ids_known_witness :
    ∃ p ∈ [(⟨some 6, "test-old", "old", "https://h/tests/test-old", none⟩
        : PackageTestRepository)], p.id = some 6 ∧ (6 : Nat) ≠ 0 :=
  claim9_remove_ids_known
    { id := 11, name := "repo", url := "https://h/r.git", tests_dir := "tests/",
      tests_prefix := some "test-", common_test_dir_name := none,
      packages := [⟨some 6, "test-old", "old", "https://h/tests/test-old", none⟩] }
    [] [] [] 11 [6] (by decide) 6 (by decide)
